import Mathlib

set_option autoImplicit false

/-!
Shallow embedding of the document ingestion pipeline of
`KBaseFaQs/universal_document_processor.py`.

Modelling conventions:
 - Python `str` is modelled as `List Char` (abbreviated `Str`); Python
   `bytes` as `List Nat` (one entry per byte).
 - Library calls that live outside the repository (pandas, pdfplumber,
   PyPDF2, PIL, pytesseract, codec lookup) are modelled as explicit
   environment data handed to the embedded functions; exceptions raised
   by those libraries are modelled as explicit failure flags or `Except`
   values, matching the `try`/`except` structure of the source.
 - `float` confidence scores are exact decimal literals in the source
   (0.7, 0.8, 0.9, 0.95, 1.0) used only as labels, never in arithmetic;
   they are modelled as naturals in hundredths (0.7 becomes 70, 1.0
   becomes 100).
 - Python `set()` de-duplication of tag lists (whose iteration order is
   unspecified) is modelled by keeping the construction order of the
   already-distinct keyword lists; no claim depends on tag order.
-/

/-- Python `str`, modelled as a list of characters. -/
abbrev Str : Type := List Char

/-- Coerce a Lean string literal into the `Str` model. -/
def lit (s : String) : Str := s.data

/-- Python whitespace, as used by `str.strip()`. -/
def isPySpace (c : Char) : Bool :=
  c == ' ' || c == '\t' || c == '\n' || c == '\r' || c == '\x0b' || c == '\x0c'

/-- Python `str.strip()`. -/
def pyStrip (s : Str) : Str :=
  ((s.dropWhile isPySpace).reverse.dropWhile isPySpace).reverse

/-- Python `str.lower()` (ASCII case folding; all extension-map keys and
keyword lists in the source are ASCII). -/
def pyLower (s : Str) : Str := s.map Char.toLower

/-- `needle` is a prefix of `hay`. -/
def leadsWith : Str → Str → Bool
  | [], _ => true
  | _ :: _, [] => false
  | c :: cs, d :: ds => c == d && leadsWith cs ds

/-- Python substring containment `needle in hay`. -/
def hasSub (needle : Str) : Str → Bool
  | [] => needle.isEmpty
  | c :: rest => leadsWith needle (c :: rest) || hasSub needle rest

/-- Python `str(n)` for a natural number. -/
def natStr (n : Nat) : Str := (Nat.repr n).data

/-- Python `enumerate`, starting at index `i`. -/
def pyEnum {α : Type} (i : Nat) : List α → List (Nat × α)
  | [] => []
  | a :: as => (i, a) :: pyEnum (i + 1) as

/-- The `DocumentType` enum of the source. -/
inductive DocumentType where
  | excel | word | pdf | powerpoint | image | text | email | html | code | archive | unknown
deriving DecidableEq, Repr

/-- The values stored in a `DocumentChunk.metadata` dict, one constructor per
shape of dict literal occurring in the source. -/
inductive ChunkMeta where
  | size (n : Nat)
  | page (n : Nat)
  | sheetRow (sheet : Str) (row : Nat)
  | section (n : Nat)
deriving DecidableEq

/-- The `DocumentChunk` dataclass. -/
structure DocumentChunk where
  chunk_id : Str
  document_id : Str
  content : Str
  content_type : Str
  chunk_index : Nat
  total_chunks : Nat
  metadata : ChunkMeta
  embedding_text : Str
deriving DecidableEq

/-- The values stored in a `KnowledgeBaseEntry.metadata` dict, one
constructor per shape of dict literal occurring in the source. -/
inductive EntryMeta where
  | excelRow (sheet : Str) (row : Nat)
  | excelSheet (total_rows total_cols : Nat)
  | pdfDoc (pages : Nat) (has_tables : Bool)
  | pdfFallback (pages : Nat)
  | pdfTable (table_index rows : Nat)
  | imageMeta (width height : Nat) (format : Option Str) (mode : Str) (has_text : Bool)
  | textMeta (lines characters : Nat) (encoding : Option Str) (content_type : Str)
deriving DecidableEq

/-- The `KnowledgeBaseEntry` dataclass. -/
structure KnowledgeBaseEntry where
  uuid : Str
  title : Str
  content : Str
  summary : Str
  category : Str
  tags : List Str
  confidence_score : Nat
  source : Str
  document_type : Str
  metadata : EntryMeta
  chunks : List DocumentChunk
  created_by : Str
  embedding_text : Option Str
deriving DecidableEq

/-- `pathlib.Path(p).name`: the final path component (trailing slashes
stripped, as pathlib does). -/
def pyPathName (p : Str) : Str :=
  ((p.reverse.dropWhile (· == '/')).takeWhile (· != '/')).reverse

/-- Index of the last `'.'` in a name, if any (Python `str.rfind('.')`,
restricted to the found case). -/
def lastDotIdx (name : Str) : Option Nat :=
  (pyEnum 0 name).foldl (fun acc p => if p.2 == '.' then some p.1 else acc) none

/-- `pathlib.Path(p).suffix`: the extension of the final component; empty
when the last dot is leading or trailing (CPython's `0 < i < len(name) - 1`
check). -/
def pySuffix (p : Str) : Str :=
  let name := pyPathName p
  match lastDotIdx name with
  | some i => if 0 < i ∧ i + 1 < name.length then name.drop i else []
  | none => []

namespace DocumentTypeDetector

/-- The static `EXTENSION_MAP` of the source, in source order. -/
def EXTENSION_MAP : List (Str × DocumentType) := [
  (lit ".xlsx", .excel), (lit ".xls", .excel), (lit ".xlsm", .excel),
  (lit ".csv", .excel), (lit ".tsv", .excel),
  (lit ".docx", .word), (lit ".doc", .word), (lit ".rtf", .word), (lit ".odt", .word),
  (lit ".pdf", .pdf),
  (lit ".pptx", .powerpoint), (lit ".ppt", .powerpoint), (lit ".odp", .powerpoint),
  (lit ".jpg", .image), (lit ".jpeg", .image), (lit ".png", .image),
  (lit ".gif", .image), (lit ".bmp", .image), (lit ".tiff", .image),
  (lit ".tif", .image), (lit ".webp", .image),
  (lit ".txt", .text), (lit ".md", .text), (lit ".markdown", .text),
  (lit ".log", .text), (lit ".json", .text), (lit ".xml", .text),
  (lit ".yaml", .text), (lit ".yml", .text), (lit ".ini", .text),
  (lit ".cfg", .text), (lit ".conf", .text),
  (lit ".eml", .email), (lit ".msg", .email), (lit ".mbox", .email),
  (lit ".html", .html), (lit ".htm", .html), (lit ".xhtml", .html),
  (lit ".py", .code), (lit ".js", .code), (lit ".java", .code),
  (lit ".c", .code), (lit ".cpp", .code), (lit ".cs", .code),
  (lit ".php", .code), (lit ".rb", .code), (lit ".go", .code),
  (lit ".rs", .code), (lit ".swift", .code), (lit ".kt", .code),
  (lit ".scala", .code), (lit ".r", .code), (lit ".sql", .code),
  (lit ".sh", .code), (lit ".bat", .code), (lit ".ps1", .code),
  (lit ".zip", .archive), (lit ".rar", .archive), (lit ".7z", .archive),
  (lit ".tar", .archive), (lit ".gz", .archive), (lit ".bz2", .archive)]

/-- Python dict `.get` on the extension table: first (only) matching key. -/
def lookupExt (k : Str) : List (Str × DocumentType) → Option DocumentType
  | [] => none
  | (k', v) :: rest => if k = k' then some v else lookupExt k rest

/-- `DocumentTypeDetector.detect`: lowercased suffix looked up in
`EXTENSION_MAP`, defaulting to `UNKNOWN`. -/
def detect (file_path : Str) : DocumentType :=
  (lookupExt (pyLower (pySuffix file_path)) EXTENSION_MAP).getD .unknown

end DocumentTypeDetector

/-- The closed category set of the `DocumentType` enum. -/
def allDocumentTypes : List DocumentType :=
  [.excel, .word, .pdf, .powerpoint, .image, .text, .email, .html, .code, .archive, .unknown]

namespace TextProcessor

/-- Prepend a character to the first segment of a split (helper for the
paragraph split below). -/
def consHead (c : Char) : List Str → List Str
  | [] => [[c]]
  | seg :: segs => (c :: seg) :: segs

/-- Python `content.split("\n\n")`: split on leftmost non-overlapping
occurrences of the two-newline separator. -/
def splitNN : Str → List Str
  | [] => [[]]
  | [c] => [[c]]
  | c :: d :: rest =>
    if c = '\n' ∧ d = '\n' then [] :: splitNN rest
    else consHead c (splitNN (d :: rest))

/-- One chunk as appended inside `_create_text_chunks`: its metadata dict
records the chunk's own size; `total_chunks` is a placeholder that the
final back-fill loop overwrites. -/
def mkTxtChunk (docId : Str) (idx : Nat) (c : Str) (total : Nat) : DocumentChunk :=
  { chunk_id := lit "chunk_" ++ natStr idx
    document_id := docId
    content := c
    content_type := lit "text"
    chunk_index := idx
    total_chunks := total
    metadata := ChunkMeta.size c.length
    embedding_text := c }

/-- The paragraph-packing `for` loop of `_create_text_chunks`; returns the
chunks appended so far, the pending `current_chunk`, and the next
`chunk_index`. -/
def chunkLoop (docId : Str) (chunkSize : Nat) :
    List Str → Str → Nat → List DocumentChunk → List DocumentChunk × Str × Nat
  | [], current, idx, acc => (acc, current, idx)
  | p :: ps, current, idx, acc =>
    if current.length + p.length < chunkSize then
      chunkLoop docId chunkSize ps (current ++ p ++ lit "\n\n") idx acc
    else if current = [] then
      chunkLoop docId chunkSize ps (p ++ lit "\n\n") idx acc
    else
      chunkLoop docId chunkSize ps (p ++ lit "\n\n") (idx + 1)
        (acc ++ [mkTxtChunk docId idx current 0])

/-- The `chunks` list of `_create_text_chunks` right before the
`total_chunks` back-fill loop: the loop's appends plus the final append of
the pending `current_chunk` (whose placeholder total is `len(chunks) + 1`,
as in the source; it is overwritten immediately afterwards). -/
def rawChunks (docId content : Str) (chunk_size : Nat) : List DocumentChunk :=
  let r := chunkLoop docId chunk_size (splitNN content) [] 0 []
  if r.2.1 = [] then r.1
  else r.1 ++ [mkTxtChunk docId r.2.2 r.2.1 (r.1.length + 1)]

/-- `TextProcessor._create_text_chunks` (lines 831–876): greedy paragraph
packing, a final append of the pending chunk, then the `total_chunks`
back-fill over every chunk. -/
def _create_text_chunks (docId content : Str) (chunk_size : Nat) : List DocumentChunk :=
  (rawChunks docId content chunk_size).map
    (fun c => { c with total_chunks := (rawChunks docId content chunk_size).length })

/-- Lines 761–764 of `TextProcessor.process`: chunk only when the decoded
content exceeds 10000 characters. -/
def chunksOfContent (docId content : Str) : List DocumentChunk :=
  if 10000 < content.length then _create_text_chunks docId content 5000 else []

/-- Total content length carried by a chunk list. -/
def chunkSum (l : List DocumentChunk) : Nat := (l.map (fun c => c.content.length)).sum

/-- Cost of a paragraph list: each paragraph is stored with a re-appended
two-character separator. -/
def paraCost (ps : List Str) : Nat := (ps.map (fun p => p.length + 2)).sum

/-- Environment for the decoding attempts of `TextProcessor.process`: the
behaviour of Python's codec machinery on this file's bytes.  `decode e b`
is `b.decode(e)` (`none` models a raised `UnicodeDecodeError`);
`decodeUtf8Ignore` is the total permissive `b.decode('utf-8',
errors='ignore')`. -/
structure CodecEnv where
  decode : Str → List Nat → Option Str
  decodeUtf8Ignore : List Nat → Str

/-- The candidate encoding list of line 741, in source order. -/
def encodingCandidates : List Str :=
  [lit "utf-8", lit "latin-1", lit "cp1252", lit "iso-8859-1"]

/-- The `for encoding in encodings` loop: first successful decode wins. -/
def tryEncodings (env : CodecEnv) (bytes : List Nat) : List Str → Option (Str × Str)
  | [] => none
  | e :: es =>
    match env.decode e bytes with
    | some c => some (c, e)
    | none => tryEncodings env bytes es

/-- Lines 740–756 of `TextProcessor.process`: the decoded content together
with the value back-filled into `metadata.encoding` (`none` when every
candidate failed and the permissive fallback was used). -/
def decodeFile (env : CodecEnv) (bytes : List Nat) : Str × Option Str :=
  match tryEncodings env bytes encodingCandidates with
  | some (c, e) => (c, some e)
  | none => (env.decodeUtf8Ignore bytes, none)

/-- Sample codec environment for concrete evaluation: `latin-1` decodes
every byte to the character with the same code, the other candidates
fail. -/
def envSample : CodecEnv :=
  { decode := fun e b => if e = lit "latin-1" then some (b.map Char.ofNat) else none
    decodeUtf8Ignore := fun _ => [] }

/-- Concrete chunk used to instantiate the C3 theorem. -/
def c3SampleChunk : DocumentChunk :=
  { chunk_id := lit "chunk_0"
    document_id := []
    content := lit "ab\n\n"
    content_type := lit "text"
    chunk_index := 0
    total_chunks := 1
    metadata := ChunkMeta.size 4
    embedding_text := lit "ab\n\n" }

end TextProcessor

namespace ImageProcessor

/-- What `PIL.Image.open` plus `pytesseract.image_to_string` yield for an
image file that opens successfully: dimensions, format, mode, and the
recognized text. -/
structure ImageInput where
  width : Nat
  height : Nat
  format : Option Str
  mode : Str
  ocrText : Str

/-- Python `str(x)` for the optional `img.format` (`str(None) = "None"`). -/
def formatStr : Option Str → Str
  | some f => f
  | none => lit "None"

/-- `ImageProcessor.process` (lines 667–730) on a successfully opened
image: an OCR entry when the recognized text is non-blank, then always
the image-descriptor entry. -/
def process (docId fileName : Str) (img : ImageInput) : List KnowledgeBaseEntry :=
  let stripped := pyStrip img.ocrText
  let meta := EntryMeta.imageMeta img.width img.height img.format img.mode (!stripped.isEmpty)
  (if stripped ≠ [] then
    [{ uuid := docId ++ lit "_ocr"
       title := lit "[OCR] " ++ fileName
       content := lit "Texto extraído da imagem:\n\n" ++ img.ocrText
       summary := img.ocrText.take 500
       category := lit "Image OCR"
       tags := [lit "imagem", lit "ocr", lit "texto_extraído"]
       confidence_score := 70
       source := fileName
       document_type := lit "image_ocr"
       metadata := meta
       chunks := []
       created_by := lit "auto_import"
       embedding_text := none }]
   else []) ++
  [{ uuid := docId
     title := lit "[Imagem] " ++ fileName
     content := lit "Imagem: " ++ fileName ++ lit "\nDimensões: " ++ natStr img.width ++
       lit "x" ++ natStr img.height ++ lit "\nFormato: " ++ formatStr img.format
     summary := lit "Arquivo de imagem " ++ formatStr img.format ++ lit " (" ++
       natStr img.width ++ lit "x" ++ natStr img.height ++ lit ")"
     category := lit "Image"
     tags := [lit "imagem",
       match img.format with
       | some f => pyLower f
       | none => lit "unknown"]
     confidence_score := 100
     source := fileName
     document_type := lit "image"
     metadata := meta
     chunks := []
     created_by := lit "auto_import"
     embedding_text := none }]

/-- The entry is the image descriptor. -/
def isImageEntry (e : KnowledgeBaseEntry) : Bool := e.document_type == lit "image"

/-- The entry is the OCR entry. -/
def isOcrEntry (e : KnowledgeBaseEntry) : Bool := e.document_type == lit "image_ocr"

end ImageProcessor

namespace PDFProcessor

/-- One page as seen through `pdfplumber`: `extract_text()` (the empty
string models both `None` and `""`, which the source treats alike via
truthiness) and `extract_tables()` (cells may be `None`). -/
structure PdfPage where
  text : Str
  tables : List (List (List (Option Str)))
deriving DecidableEq

/-- Environment of one `PDFProcessor.process` run: the parsed pages plus
failure flags for the two library strategies.  PyPDF2 is modelled as
extracting the same per-page text as pdfplumber. -/
structure PdfEnv where
  plumberFails : Bool
  pypdf2Fails : Bool
  docId : Str
  fileName : Str
  pages : List PdfPage
deriving DecidableEq

/-- The `f"--- Página {i+1} ---\n"` page banner. -/
def pageHeader (i : Nat) : Str := lit "--- Página " ++ natStr (i + 1) ++ lit " ---\n"

/-- The `all_text` list: one page-banner-prefixed block per page with
non-empty extracted text. -/
def textBlocks (pages : List PdfPage) : List Str :=
  (pyEnum 0 pages).filterMap
    (fun p => if p.2.text = [] then none else some (pageHeader p.1 ++ p.2.text))

/-- The `tables` list: all tables of all pages, extended in page order. -/
def allTables (pages : List PdfPage) : List (List (List (Option Str))) :=
  (pages.map (fun p => p.tables)).flatten

/-- `PDFProcessor._extract_pdf_tags`. -/
def _extract_pdf_tags (content : Str) : List Str :=
  [lit "pdf", lit "documento"] ++
    ([lit "manual", lit "guide", lit "tutorial", lit "specification",
      lit "documentation"].filter (fun k => hasSub k (pyLower content)))

/-- The per-page chunks of the pdfplumber document entry (built from
`enumerate(all_text)`). -/
def pageChunks (docId : Str) (blocks : List Str) : List DocumentChunk :=
  (pyEnum 0 blocks).map (fun p =>
    { chunk_id := lit "page_" ++ natStr p.1
      document_id := docId
      content := p.2
      content_type := lit "text"
      chunk_index := p.1
      total_chunks := blocks.length
      metadata := ChunkMeta.page (p.1 + 1)
      embedding_text := p.2 })

/-- The document-level entry of the table-aware (pdfplumber) strategy
(lines 439–475). -/
def plumberDocEntry (docId fileName : Str) (pages : List PdfPage) : KnowledgeBaseEntry :=
  { uuid := docId
    title := lit "[PDF] " ++ fileName
    content := List.intercalate (lit "\n\n") (textBlocks pages)
    summary := (List.intercalate (lit "\n\n") (textBlocks pages)).take 1000
    category := lit "Document"
    tags := _extract_pdf_tags (List.intercalate (lit "\n\n") (textBlocks pages))
    confidence_score := 90
    source := fileName
    document_type := lit "pdf"
    metadata := EntryMeta.pdfDoc pages.length (!(allTables pages).isEmpty)
    chunks := pageChunks docId (textBlocks pages)
    created_by := lit "auto_import"
    embedding_text := none }

/-- One rendered table row: pipe-joined truthy cells. -/
def tableRowLine (row : List (Option Str)) : Str :=
  List.intercalate (lit " | ") (row.filterMap (fun c =>
    match c with
    | some v => if v = [] then none else some v
    | none => none))

/-- `PDFProcessor._create_table_entry` (lines 531–554). -/
def _create_table_entry (docId fileName : Str) (table : List (List (Option Str)))
    (index : Nat) : Option KnowledgeBaseEntry :=
  if table.length < 2 then none
  else
    some { uuid := docId ++ lit "_table_" ++ natStr index
           title := lit "[Tabela PDF] Tabela " ++ natStr (index + 1) ++ lit " de " ++ fileName
           content := lit "Tabela extraída:\n" ++
             (table.map (fun row => tableRowLine row ++ lit "\n")).flatten
           summary := lit "Tabela com " ++ natStr table.length ++ lit " linhas e " ++
             natStr (match table with | r :: _ => r.length | [] => 0) ++ lit " colunas"
           category := lit "Table"
           tags := [lit "tabela", lit "pdf", lit "dados"]
           confidence_score := 80
           source := fileName
           document_type := lit "pdf_table"
           metadata := EntryMeta.pdfTable index table.length
           chunks := []
           created_by := lit "auto_import"
           embedding_text := none }

/-- The document entry of the PyPDF2 fallback strategy (lines 486–512):
confidence 0.7 and an empty chunk list. -/
def fallbackEntry (docId fileName : Str) (pages : List PdfPage) : KnowledgeBaseEntry :=
  { uuid := docId
    title := lit "[PDF] " ++ fileName
    content := List.intercalate (lit "\n\n") (textBlocks pages)
    summary := (List.intercalate (lit "\n\n") (textBlocks pages)).take 1000
    category := lit "Document"
    tags := [lit "pdf"]
    confidence_score := 70
    source := fileName
    document_type := lit "pdf"
    metadata := EntryMeta.pdfFallback pages.length
    chunks := []
    created_by := lit "auto_import"
    embedding_text := none }

/-- `PDFProcessor.process` (lines 414–517): the table-aware strategy, the
PyPDF2 fallback when it fails, and the empty result when both fail (outer
`except`). -/
def process (env : PdfEnv) : List KnowledgeBaseEntry :=
  if env.plumberFails then
    if env.pypdf2Fails then []
    else [fallbackEntry env.docId env.fileName env.pages]
  else
    plumberDocEntry env.docId env.fileName env.pages ::
      (pyEnum 0 (allTables env.pages)).filterMap
        (fun p => _create_table_entry env.docId env.fileName p.2 p.1)

end PDFProcessor

/-- Claim C1 as stated: whenever the table-aware strategy fails, the
fallback still produces a document-level entry with one chunk per page and
confidence 0.7, with table entries omitted. -/
abbrev ClaimC1Prop (env : PDFProcessor.PdfEnv) : Prop :=
  env.plumberFails = true →
    (∃ e ∈ PDFProcessor.process env, e.document_type = lit "pdf" ∧
      e.confidence_score = 70 ∧ e.chunks.length = env.pages.length) ∧
    ∀ e ∈ PDFProcessor.process env, e.document_type ≠ lit "pdf_table"

/-- A one-page PDF on which the table-aware strategy fails and the
fallback succeeds. -/
def c1Env : PDFProcessor.PdfEnv :=
  { plumberFails := true
    pypdf2Fails := false
    docId := []
    fileName := []
    pages := [{ text := lit "x", tables := [] }] }

/-- Claim C4 as stated: under the table-aware strategy the first (document)
entry has confidence 0.9 and one chunk per page of the document, each
chunk with content-type "text" and chunk index equal to page number minus
one. -/
abbrev ClaimC4Prop (env : PDFProcessor.PdfEnv) : Prop :=
  env.plumberFails = false →
    PDFProcessor.process env ≠ [] ∧
    ∀ e ∈ (PDFProcessor.process env).take 1,
      e.confidence_score = 90 ∧ e.chunks.length = env.pages.length ∧
      ∀ p ∈ pyEnum 0 e.chunks, p.2.content_type = lit "text" ∧ p.2.chunk_index = p.1

/-- A two-page PDF whose first page yields no text under the table-aware
strategy. -/
def c4Env : PDFProcessor.PdfEnv :=
  { plumberFails := false
    pypdf2Fails := false
    docId := []
    fileName := []
    pages := [{ text := [], tables := [] }, { text := lit "x", tables := [] }] }

namespace ExcelProcessor

/-- A spreadsheet cell: `none` models pandas NaN, `some v` the cell's
value rendered by `str(value)`. -/
abbrev Cell := Option Str

/-- A sheet as seen through `pandas.read_excel`: header names and the data
rows (each row has `headers.length` cells). -/
structure Sheet where
  sheet_name : Str
  headers : List Str
  rows : List (List Cell)
deriving DecidableEq

/-- `df.dropna(how='all')`: the data rows with at least one non-null cell,
paired with their original positional index labels (pandas keeps index
labels, and `iterrows` later yields exactly those labels). -/
def keptRowPairs (s : Sheet) : List (Nat × List Cell) :=
  (pyEnum 0 s.rows).filter (fun p => p.2.any (fun c => c.isSome))

/-- `df.dropna(axis=1, how='all')` on the surviving rows: the kept column
positions. -/
def prunedIdxs (s : Sheet) : List Nat :=
  (List.range s.headers.length).filter
    (fun j => (keptRowPairs s).any (fun p => (p.2.getD j none).isSome))

/-- The column labels of the pruned frame. -/
def prunedHeaders (s : Sheet) : List Str :=
  (prunedIdxs s).map (fun j => s.headers.getD j [])

/-- A row restricted to the kept columns. -/
def pruneRow (idxs : List Nat) (r : List Cell) : List Cell :=
  idxs.map (fun j => r.getD j none)

/-- The identifier-like header keywords of `_create_entry_from_row`. -/
def titleKeywords : List Str :=
  [lit "nome", lit "name", lit "título", lit "title", lit "id", lit "código", lit "code"]

/-- Header matches one of the identifier-like keywords (substring of the
lowercased header). -/
def isTitleCol (col : Str) : Bool :=
  titleKeywords.any (fun k => hasSub k (pyLower col))

/-- The `(col, str(value).strip())` pairs for the non-null, non-blank cells
of a row, in column order (`row.get(col)` is modelled positionally;
header names are assumed distinct, as pandas requires for `get`). -/
def cellParts (columns : List Str) (row : List Cell) : List (Str × Str) :=
  (columns.zip row).filterMap (fun p =>
    match p.2 with
    | some v => if pyStrip v = [] then none else some (p.1, pyStrip v)
    | none => none)

/-- The domain keyword list of `ExcelProcessor._extract_tags`. -/
def tagKeywords : List Str :=
  [lit "CICS", lit "DB2", lit "IMS", lit "COBOL", lit "JCL", lit "VSAM",
   lit "Mainframe", lit "Batch", lit "Online"]

/-- `ExcelProcessor._extract_tags`. -/
def _extract_tags (content : Str) : List Str :=
  (tagKeywords.filter (fun k => hasSub (pyLower k) (pyLower content))).map pyLower

/-- `ExcelProcessor._create_entry_from_row` (lines 308–363). -/
def _create_entry_from_row (docId fileName sheetName : Str) (columns : List Str)
    (rowIndex : Nat) (row : List Cell) : Option KnowledgeBaseEntry :=
  let parts := cellParts columns row
  let contentParts := parts.map (fun p => p.1 ++ lit ": " ++ p.2)
  if contentParts = [] then none
  else
    let titleParts := (parts.filter (fun p => isTitleCol p.1)).map (fun p => p.2)
    let title :=
      if titleParts ≠ [] then List.intercalate (lit " - ") (titleParts.take 3)
      else lit "Linha " ++ natStr (rowIndex + 1) ++ lit " de " ++ sheetName
    let content := List.intercalate (lit "\n") contentParts
    some { uuid := docId ++ lit "_" ++ sheetName ++ lit "_" ++ natStr rowIndex
           title := lit "[Excel] " ++ title
           content := content
           summary := content.take 500
           category := lit "Spreadsheet Data"
           tags := _extract_tags content
           confidence_score := 80
           source := fileName
           document_type := lit "excel"
           metadata := EntryMeta.excelRow sheetName rowIndex
           chunks := [{ chunk_id := sheetName ++ lit "_" ++ natStr rowIndex
                        document_id := docId
                        content := content
                        content_type := lit "table_row"
                        chunk_index := rowIndex
                        total_chunks := columns.length
                        metadata := ChunkMeta.sheetRow sheetName rowIndex
                        embedding_text := content }]
           created_by := lit "auto_import"
           embedding_text := none }

/-- Crude stand-in for pandas `df.head(10).to_string()` (opaque library
formatting; no claim depends on its exact shape). -/
def sampleRender (rows : List (List Cell)) : Str :=
  List.intercalate (lit "\n") ((rows.take 10).map (fun r =>
    List.intercalate (lit " ")
      (r.map (fun c => match c with | some v => v | none => lit "NaN"))))

/-- `ExcelProcessor._create_entry_from_sheet` (lines 365–397); `df.empty`
holds when either axis of the pruned frame is empty. -/
def _create_entry_from_sheet (docId fileName sheetName : Str) (columns : List Str)
    (rows : List (List Cell)) : Option KnowledgeBaseEntry :=
  if rows.isEmpty || columns.isEmpty then none
  else
    some { uuid := docId ++ lit "_" ++ sheetName ++ lit "_sheet"
           title := lit "[Excel Sheet] " ++ sheetName ++ lit " - " ++ fileName
           content := List.intercalate (lit "\n")
               [lit "Sheet: " ++ sheetName,
                lit "Linhas: " ++ natStr rows.length,
                lit "Colunas: " ++ natStr columns.length,
                lit "Colunas: " ++ List.intercalate (lit ", ") (columns.take 10)] ++
             lit "\n\nAmostra de dados:\n" ++ sampleRender rows
           summary := List.intercalate (lit " | ")
               [lit "Sheet: " ++ sheetName,
                lit "Linhas: " ++ natStr rows.length,
                lit "Colunas: " ++ natStr columns.length,
                lit "Colunas: " ++ List.intercalate (lit ", ") (columns.take 10)]
           category := lit "Spreadsheet"
           tags := [sheetName, lit "excel", lit "tabela"]
           confidence_score := 90
           source := fileName
           document_type := lit "excel_sheet"
           metadata := EntryMeta.excelSheet rows.length columns.length
           chunks := []
           created_by := lit "auto_import"
           embedding_text := none }

/-- The per-sheet body of `ExcelProcessor.process` (lines 285–301):
pruning, the `df.empty` skip, one candidate entry per surviving row (via
`iterrows`, which yields the original index labels), then the whole-sheet
entry. -/
def processSheet (docId fileName : Str) (s : Sheet) : List KnowledgeBaseEntry :=
  if (keptRowPairs s).isEmpty || (prunedIdxs s).isEmpty then []
  else
    ((keptRowPairs s).filterMap (fun p =>
       _create_entry_from_row docId fileName s.sheet_name (prunedHeaders s) p.1
         (pruneRow (prunedIdxs s) p.2))) ++
    (_create_entry_from_sheet docId fileName s.sheet_name (prunedHeaders s)
       ((keptRowPairs s).map (fun p => pruneRow (prunedIdxs s) p.2))).toList

/-- The entry is a row-level entry. -/
def isRowEntry (e : KnowledgeBaseEntry) : Bool := e.document_type == lit "excel"

/-- A cell that contributes content: non-null with non-blank stripped
string form. -/
def goodCell (c : Cell) : Bool :=
  match c with
  | some v => !(pyStrip v).isEmpty
  | none => false

/-- A pruned row that yields a row entry. -/
def goodRow (idxs : List Nat) (r : List Cell) : Bool :=
  (pruneRow idxs r).any goodCell

end ExcelProcessor

/-- Claim C5 as stated: per sheet, the number of row-level entries equals
the number of rows surviving empty-row/empty-column pruning. -/
def ClaimC5Prop (s : ExcelProcessor.Sheet) : Prop :=
  ∀ docId fileName : Str,
    (ExcelProcessor.processSheet docId fileName s).countP ExcelProcessor.isRowEntry =
      (ExcelProcessor.keptRowPairs s).length

/-- A sheet whose single row has one whitespace-only (non-null) cell: it
survives pruning but yields no row entry. -/
def c5Sheet : ExcelProcessor.Sheet :=
  { sheet_name := lit "S", headers := [lit "a"], rows := [[some (lit " ")]] }

/-- A one-row sheet with an identifier-like header, for instantiating the
C10 theorem. -/
def c10Sheet : ExcelProcessor.Sheet :=
  { sheet_name := lit "S", headers := [lit "name"], rows := [[some (lit "v")]] }

/-- The row entry `processSheet` produces for `c10Sheet`. -/
def c10Entry : KnowledgeBaseEntry :=
  { uuid := lit "_S_0"
    title := lit "[Excel] v"
    content := lit "name: v"
    summary := lit "name: v"
    category := lit "Spreadsheet Data"
    tags := []
    confidence_score := 80
    source := []
    document_type := lit "excel"
    metadata := EntryMeta.excelRow (lit "S") 0
    chunks := [{ chunk_id := lit "S_0"
                 document_id := []
                 content := lit "name: v"
                 content_type := lit "table_row"
                 chunk_index := 0
                 total_chunks := 1
                 metadata := ChunkMeta.sheetRow (lit "S") 0
                 embedding_text := lit "name: v" }]
    created_by := lit "auto_import"
    embedding_text := none }

namespace UniversalDocumentProcessor

/-- The registered processor classes (keys of `self.processors`). -/
inductive ProcClass where
  | excel | pdf | word | image | text
deriving DecidableEq

/-- `self.processors.get(doc_type)` (lines 907–914). -/
def registeredProcessor : DocumentType → Option ProcClass
  | .excel => some .excel
  | .pdf => some .pdf
  | .word => some .word
  | .image => some .image
  | .text => some .text
  | _ => none

/-- One file as `process_file` sees it: its path, plus the outcome of
constructing and running each processor class on it (`Except.error`
models an exception escaping the constructor or `processor.process()`). -/
structure FileBehavior where
  path : Str
  run : ProcClass → Except Unit (List KnowledgeBaseEntry)

/-- The `try` body of `process_file` with its `except` clause applied:
entries on success, the empty list when the processor raised. -/
def runEntries (f : FileBehavior) (c : ProcClass) : List KnowledgeBaseEntry :=
  match f.run c with
  | .ok es => es
  | .error _ => []

/-- `UniversalDocumentProcessor.process_file` (lines 916–940): classify,
select the registered processor (defaulting to the text processor), run
it, and catch any exception as an empty result. -/
def process_file (f : FileBehavior) : List KnowledgeBaseEntry :=
  runEntries f ((registeredProcessor (DocumentTypeDetector.detect f.path)).getD ProcClass.text)

end UniversalDocumentProcessor

/-- Claim C2 as stated: `process_file` falls back to the plain-text
extractor both when no extractor is registered for the detected category
and when the selected extractor throws during processing. -/
def ClaimC2Prop (f : UniversalDocumentProcessor.FileBehavior) : Prop :=
  (UniversalDocumentProcessor.registeredProcessor (DocumentTypeDetector.detect f.path) = none →
    UniversalDocumentProcessor.process_file f =
      UniversalDocumentProcessor.runEntries f UniversalDocumentProcessor.ProcClass.text) ∧
  (∀ c, UniversalDocumentProcessor.registeredProcessor (DocumentTypeDetector.detect f.path) = some c →
    f.run c = Except.error () →
    UniversalDocumentProcessor.process_file f =
      UniversalDocumentProcessor.runEntries f UniversalDocumentProcessor.ProcClass.text)

/-- An arbitrary non-trivial entry used to distinguish processor results. -/
def dummyEntry : KnowledgeBaseEntry :=
  { uuid := lit "d"
    title := []
    content := []
    summary := []
    category := []
    tags := []
    confidence_score := 100
    source := []
    document_type := []
    metadata := EntryMeta.pdfFallback 0
    chunks := []
    created_by := []
    embedding_text := none }

/-- A `.pdf` file whose PDF processor raises while its text processor
would succeed with one entry. -/
def c2File : UniversalDocumentProcessor.FileBehavior :=
  { path := lit "a.pdf"
    run := fun c =>
      match c with
      | UniversalDocumentProcessor.ProcClass.pdf => Except.error ()
      | _ => Except.ok [dummyEntry] }

/-- C9: the type classifier is a total function on paths returning exactly
one category of the closed set, determined by looking up the lowercased
file extension in the static extension table, with unmapped extensions
yielding `unknown`. -/
theorem claimC9_theorem (p : Str) :
    DocumentTypeDetector.detect p ∈ allDocumentTypes ∧
    (DocumentTypeDetector.lookupExt (pyLower (pySuffix p)) DocumentTypeDetector.EXTENSION_MAP = none →
      DocumentTypeDetector.detect p = DocumentType.unknown) ∧
    (∀ t, DocumentTypeDetector.lookupExt (pyLower (pySuffix p)) DocumentTypeDetector.EXTENSION_MAP = some t →
      DocumentTypeDetector.detect p = t) := by
  refine ⟨?_, ?_, ?_⟩
  · cases DocumentTypeDetector.detect p <;> decide
  · intro h
    simp [DocumentTypeDetector.detect, h]
  · intro t h
    simp [DocumentTypeDetector.detect, h]

/-- C9 witness: the classifier at the concrete paths `"notes.PDF"` (mapped)
and `"data.xyz"` (unmapped). -/
theorem claimC9_witness :
    DocumentTypeDetector.detect (lit "notes.PDF") = DocumentType.pdf ∧
    DocumentTypeDetector.detect (lit "data.xyz") = DocumentType.unknown := by
  constructor
  · exact (claimC9_theorem (lit "notes.PDF")).2.2 DocumentType.pdf (by decide)
  · exact (claimC9_theorem (lit "data.xyz")).2.1 (by decide)

namespace TextProcessor

theorem consHead_ne_nil (c : Char) (l : List Str) : consHead c l ≠ [] := by
  cases l <;> simp [consHead]

theorem splitNN_ne_nil : ∀ s : Str, splitNN s ≠ []
  | [] => by simp [splitNN]
  | [c] => by simp [splitNN]
  | c :: d :: rest => by
    simp only [splitNN]
    split
    · simp
    · exact consHead_ne_nil c (splitNN (d :: rest))

theorem paraCost_consHead (c : Char) (l : List Str) (h : l ≠ []) :
    paraCost (consHead c l) = paraCost l + 1 := by
  cases l with
  | nil => exact absurd rfl h
  | cons seg segs => simp [consHead, paraCost]; omega

theorem paraCost_splitNN : ∀ s : Str, paraCost (splitNN s) = s.length + 2
  | [] => by simp [splitNN, paraCost]
  | [c] => by simp [splitNN, paraCost]
  | c :: d :: rest => by
    simp only [splitNN]
    split
    · have ih := paraCost_splitNN rest
      simp [paraCost] at ih ⊢
      omega
    · have ih := paraCost_splitNN (d :: rest)
      rw [paraCost_consHead c _ (splitNN_ne_nil (d :: rest)), ih]
      simp

theorem chunkLoop_index (docId : Str) (chunkSize : Nat) :
    ∀ (ps : List Str) (current : Str) (idx : Nat) (acc : List DocumentChunk),
      acc.map (fun c => c.chunk_index) = List.range idx →
      (chunkLoop docId chunkSize ps current idx acc).1.map (fun c => c.chunk_index) =
        List.range (chunkLoop docId chunkSize ps current idx acc).2.2
  | [], current, idx, acc, h => by simpa [chunkLoop] using h
  | p :: ps, current, idx, acc, h => by
    simp only [chunkLoop]
    split
    · exact chunkLoop_index docId chunkSize ps _ idx acc h
    · split
      · exact chunkLoop_index docId chunkSize ps _ idx acc h
      · refine chunkLoop_index docId chunkSize ps _ (idx + 1) _ ?_
        simp [h, List.range_succ, mkTxtChunk]

theorem chunkLoop_meta (docId : Str) (chunkSize : Nat) :
    ∀ (ps : List Str) (current : Str) (idx : Nat) (acc : List DocumentChunk),
      (∀ c ∈ acc, c.metadata = ChunkMeta.size c.content.length) →
      ∀ c ∈ (chunkLoop docId chunkSize ps current idx acc).1,
        c.metadata = ChunkMeta.size c.content.length
  | [], current, idx, acc, h => by simpa [chunkLoop] using h
  | p :: ps, current, idx, acc, h => by
    simp only [chunkLoop]
    split
    · exact chunkLoop_meta docId chunkSize ps _ idx acc h
    · split
      · exact chunkLoop_meta docId chunkSize ps _ idx acc h
      · refine chunkLoop_meta docId chunkSize ps _ (idx + 1) _ ?_
        intro c hc
        rcases List.mem_append.mp hc with hc | hc
        · exact h c hc
        · simp only [List.mem_singleton] at hc
          subst hc
          rfl

theorem chunkLoop_sum (docId : Str) (chunkSize : Nat) :
    ∀ (ps : List Str) (current : Str) (idx : Nat) (acc : List DocumentChunk),
      chunkSum (chunkLoop docId chunkSize ps current idx acc).1 +
        (chunkLoop docId chunkSize ps current idx acc).2.1.length =
      chunkSum acc + current.length + paraCost ps
  | [], current, idx, acc => by simp [chunkLoop, paraCost]
  | p :: ps, current, idx, acc => by
    simp only [chunkLoop]
    split
    · have ih := chunkLoop_sum docId chunkSize ps (current ++ p ++ lit "\n\n") idx acc
      rw [ih]
      simp [paraCost, lit]
      omega
    · split
      · have ih := chunkLoop_sum docId chunkSize ps (p ++ lit "\n\n") idx acc
        rw [ih]
        rename_i hemp
        subst hemp
        simp [paraCost, lit]
        omega
      · have ih := chunkLoop_sum docId chunkSize ps (p ++ lit "\n\n") (idx + 1)
          (acc ++ [mkTxtChunk docId idx current 0])
        rw [ih]
        simp [paraCost, chunkSum, mkTxtChunk, lit]
        omega

theorem chunkLoop_current_ne (docId : Str) (chunkSize : Nat) :
    ∀ (ps : List Str) (current : Str) (idx : Nat) (acc : List DocumentChunk),
      (ps ≠ [] ∨ current ≠ []) →
      (chunkLoop docId chunkSize ps current idx acc).2.1 ≠ []
  | [], current, idx, acc, h => by
    rcases h with h | h
    · exact absurd rfl h
    · simpa [chunkLoop] using h
  | p :: ps, current, idx, acc, _ => by
    simp only [chunkLoop]
    have hne : ∀ s : Str, (s ++ lit "\n\n") ≠ [] := by
      intro s hs
      have := congrArg List.length hs
      simp [lit] at this
    split
    · refine chunkLoop_current_ne docId chunkSize ps _ idx acc (Or.inr ?_)
      have := hne (current ++ p)
      simpa [List.append_assoc] using this
    · split
      · exact chunkLoop_current_ne docId chunkSize ps _ idx acc (Or.inr (hne p))
      · exact chunkLoop_current_ne docId chunkSize ps _ (idx + 1) _ (Or.inr (hne p))

end TextProcessor

namespace TextProcessor

theorem rawChunks_index (docId content : Str) (cs : Nat) :
    (rawChunks docId content cs).map (fun c => c.chunk_index) =
      List.range (rawChunks docId content cs).length := by
  have hidx := chunkLoop_index docId cs (splitNN content) [] 0 [] (by simp)
  have hlen : (chunkLoop docId cs (splitNN content) [] 0 []).1.length =
      (chunkLoop docId cs (splitNN content) [] 0 []).2.2 := by
    have := congrArg List.length hidx
    simpa using this
  simp only [rawChunks]
  split
  · rw [hidx, hlen]
  · simp [List.range_succ, mkTxtChunk, hidx, hlen]

theorem rawChunks_meta (docId content : Str) (cs : Nat) :
    ∀ c ∈ rawChunks docId content cs, c.metadata = ChunkMeta.size c.content.length := by
  have hmeta := chunkLoop_meta docId cs (splitNN content) [] 0 [] (by simp)
  simp only [rawChunks]
  split
  · exact hmeta
  · intro c hc
    rcases List.mem_append.mp hc with hc | hc
    · exact hmeta c hc
    · simp only [List.mem_singleton] at hc
      subst hc
      rfl

theorem rawChunks_ne_nil (docId content : Str) (cs : Nat) :
    rawChunks docId content cs ≠ [] := by
  have hcur := chunkLoop_current_ne docId cs (splitNN content) [] 0 []
    (Or.inl (splitNN_ne_nil content))
  simp only [rawChunks]
  split
  · rename_i h
    exact absurd h hcur
  · simp

theorem rawChunks_sum (docId content : Str) (cs : Nat) :
    chunkSum (rawChunks docId content cs) = content.length + 2 := by
  have hsum := chunkLoop_sum docId cs (splitNN content) [] 0 []
  rw [paraCost_splitNN content] at hsum
  simp only [chunkSum, List.map_nil, List.sum_nil, List.length_nil, Nat.zero_add] at hsum
  simp only [rawChunks, chunkSum]
  split
  · rename_i h
    rw [h] at hsum
    simpa using hsum
  · rw [List.map_append, List.sum_append]
    simp only [mkTxtChunk, List.map_cons, List.map_nil, List.sum_cons, List.sum_nil]
    omega

end TextProcessor

/-- C3: for every content string handed to the text chunker, every produced
chunk's `total_chunks` equals the final number of chunks, chunks are
0-indexed in append (paragraph) order, and each chunk's metadata records
its own content size. -/
theorem claimC3_theorem (docId content : Str) (chunkSize : Nat) :
    (TextProcessor._create_text_chunks docId content chunkSize).map (fun c => c.chunk_index) =
      List.range (TextProcessor._create_text_chunks docId content chunkSize).length ∧
    ∀ c ∈ TextProcessor._create_text_chunks docId content chunkSize,
      c.total_chunks = (TextProcessor._create_text_chunks docId content chunkSize).length ∧
      c.metadata = ChunkMeta.size c.content.length := by
  constructor
  · have h := TextProcessor.rawChunks_index docId content chunkSize
    simpa [TextProcessor._create_text_chunks, List.map_map, Function.comp] using h
  · intro c hc
    simp only [TextProcessor._create_text_chunks, List.mem_map] at hc
    obtain ⟨c0, hc0, rfl⟩ := hc
    refine ⟨?_, ?_⟩
    · simp [TextProcessor._create_text_chunks]
    · have h := TextProcessor.rawChunks_meta docId content chunkSize c0 hc0
      simpa using h

set_option maxRecDepth 8000 in
/-- C3 witness: the single chunk produced for content `"ab"` with budget 1
has `total_chunks` equal to the produced count and size metadata. -/
theorem claimC3_witness :
    TextProcessor.c3SampleChunk.total_chunks =
      (TextProcessor._create_text_chunks [] (lit "ab") 1).length ∧
    TextProcessor.c3SampleChunk.metadata =
      ChunkMeta.size TextProcessor.c3SampleChunk.content.length :=
  (claimC3_theorem [] (lit "ab") 1).2 TextProcessor.c3SampleChunk (by decide)

/-- C6: for every decoded plain-text content longer than 10000 characters,
chunking is applied (the chunk list is non-empty) and the chunk contents
together are at least as long as the original content. -/
theorem claimC6_theorem (docId content : Str) (h : 10000 < content.length) :
    TextProcessor.chunksOfContent docId content ≠ [] ∧
    content.length ≤ TextProcessor.chunkSum (TextProcessor.chunksOfContent docId content) := by
  have hne := TextProcessor.rawChunks_ne_nil docId content 5000
  have hsum := TextProcessor.rawChunks_sum docId content 5000
  have hcc : TextProcessor.chunksOfContent docId content =
      TextProcessor._create_text_chunks docId content 5000 := by
    simp [TextProcessor.chunksOfContent, h]
  constructor
  · rw [hcc]
    simp only [TextProcessor._create_text_chunks, ne_eq, List.map_eq_nil_iff]
    exact hne
  · rw [hcc]
    have heq : TextProcessor.chunkSum (TextProcessor._create_text_chunks docId content 5000) =
        TextProcessor.chunkSum (TextProcessor.rawChunks docId content 5000) := by
      simp only [TextProcessor._create_text_chunks, TextProcessor.chunkSum, List.map_map]
      rfl
    rw [heq, hsum]
    omega

/-- C6 witness: a 10001-character content is chunked and its chunks cover
the original length. -/
theorem claimC6_witness :
    TextProcessor.chunksOfContent [] (List.replicate 10001 'a') ≠ [] ∧
    (List.replicate 10001 'a').length ≤
      TextProcessor.chunkSum (TextProcessor.chunksOfContent [] (List.replicate 10001 'a')) :=
  claimC6_theorem [] (List.replicate 10001 'a') (by rw [List.length_replicate]; omega)

namespace TextProcessor

theorem tryEncodings_all_none (env : CodecEnv) (bytes : List Nat) :
    ∀ l : List Str, (∀ e ∈ l, env.decode e bytes = none) →
      tryEncodings env bytes l = none
  | [], _ => rfl
  | e :: es, h => by
    have he := h e (by simp)
    have hrest := tryEncodings_all_none env bytes es (fun e' he' => h e' (by simp [he']))
    simp [tryEncodings, he, hrest]

theorem tryEncodings_first (env : CodecEnv) (bytes : List Nat) :
    ∀ (pre : List Str) (enc : Str) (post : List Str) (c : Str),
      (∀ e ∈ pre, env.decode e bytes = none) →
      env.decode enc bytes = some c →
      tryEncodings env bytes (pre ++ enc :: post) = some (c, enc)
  | [], enc, post, c, _, hs => by simp [tryEncodings, hs]
  | e :: pre, enc, post, c, hpre, hs => by
    have he := hpre e (by simp)
    have ih := tryEncodings_first env bytes pre enc post c
      (fun e' he' => hpre e' (by simp [he'])) hs
    simp [tryEncodings, he, ih]

end TextProcessor

/-- C8: the text extractor tries the candidate encodings in source order and
keeps the content of the first that succeeds (recording that encoding for
the descriptor back-fill); if every candidate fails it decodes permissively
with `errors='ignore'`, so decoding never fails. -/
theorem claimC8_theorem (env : TextProcessor.CodecEnv) (bytes : List Nat) :
    ((∀ e ∈ TextProcessor.encodingCandidates, env.decode e bytes = none) →
      TextProcessor.decodeFile env bytes = (env.decodeUtf8Ignore bytes, none)) ∧
    (∀ (pre : List Str) (enc : Str) (post : List Str) (c : Str),
      TextProcessor.encodingCandidates = pre ++ enc :: post →
      (∀ e ∈ pre, env.decode e bytes = none) →
      env.decode enc bytes = some c →
      TextProcessor.decodeFile env bytes = (c, some enc)) := by
  constructor
  · intro h
    have := TextProcessor.tryEncodings_all_none env bytes TextProcessor.encodingCandidates h
    simp [TextProcessor.decodeFile, this]
  · intro pre enc post c hsplit hpre hs
    have := TextProcessor.tryEncodings_first env bytes pre enc post c hpre hs
    rw [← hsplit] at this
    simp [TextProcessor.decodeFile, this]

/-- C8 witness: in a codec environment where `utf-8` fails on byte 65 and
`latin-1` succeeds, the loop keeps the `latin-1` result and records that
encoding. -/
theorem claimC8_witness :
    TextProcessor.decodeFile TextProcessor.envSample [65] = (lit "A", some (lit "latin-1")) :=
  (claimC8_theorem TextProcessor.envSample [65]).2 [lit "utf-8"] (lit "latin-1")
    [lit "cp1252", lit "iso-8859-1"] (lit "A") (by decide) (by decide) (by decide)

theorem pyEnum_length {α : Type} : ∀ (i : Nat) (l : List α), (pyEnum i l).length = l.length
  | _, [] => rfl
  | i, _ :: as => by simp [pyEnum, pyEnum_length (i + 1) as]

theorem pyEnum_map_fst {α : Type} : ∀ (i : Nat) (l : List α),
    (pyEnum i l).map Prod.fst = List.range' i l.length
  | _, [] => rfl
  | i, _ :: as => by simp [pyEnum, List.range'_succ, pyEnum_map_fst (i + 1) as]

theorem mem_pyEnum {α : Type} : ∀ (l : List α) (i : Nat) (p : Nat × α),
    p ∈ pyEnum i l → i ≤ p.1 ∧ l[p.1 - i]? = some p.2
  | [], _, _, h => by simp [pyEnum] at h
  | a :: as, i, p, h => by
    simp only [pyEnum, List.mem_cons] at h
    rcases h with h | h
    · subst h
      simp
    · obtain ⟨h1, h2⟩ := mem_pyEnum as (i + 1) p h
      refine ⟨by omega, ?_⟩
      have hgt : p.1 - i = (p.1 - (i + 1)) + 1 := by omega
      rw [hgt]
      simpa using h2

theorem countP_filterMap_eq {α β : Type} (f : α → Option β) (q : β → Bool)
    (h : ∀ a b, f a = some b → q b = true) :
    ∀ l : List α, (l.filterMap f).countP q = l.countP (fun a => (f a).isSome)
  | [] => rfl
  | a :: l => by
    rw [List.filterMap_cons]
    cases hfa : f a with
    | none => simp [List.countP_cons, hfa, countP_filterMap_eq f q h l]
    | some b =>
      have hq := h a b hfa
      simp [List.countP_cons, hfa, hq, countP_filterMap_eq f q h l]

/-- C7: the image extractor always emits exactly one image-descriptor entry
(confidence 1.0) and emits an OCR entry (confidence 0.7) if and only if
the recognized text is non-blank; an image with no recognizable text
yields exactly one entry. -/
theorem claimC7_theorem (docId fileName : Str) (img : ImageProcessor.ImageInput) :
    ((ImageProcessor.process docId fileName img).countP ImageProcessor.isImageEntry = 1) ∧
    ((ImageProcessor.process docId fileName img).countP
        (fun e => ImageProcessor.isImageEntry e && decide (e.confidence_score = 100)) = 1) ∧
    ((ImageProcessor.process docId fileName img).countP ImageProcessor.isOcrEntry =
      if pyStrip img.ocrText = [] then 0 else 1) ∧
    ((ImageProcessor.process docId fileName img).countP
        (fun e => ImageProcessor.isOcrEntry e && decide (e.confidence_score = 70)) =
      if pyStrip img.ocrText = [] then 0 else 1) ∧
    ((ImageProcessor.process docId fileName img).length =
      if pyStrip img.ocrText = [] then 1 else 2) := by
  have e1 : (lit "image" == lit "image") = true := by decide
  have e2 : (lit "image_ocr" == lit "image") = false := by decide
  have e3 : (lit "image_ocr" == lit "image_ocr") = true := by decide
  have e4 : (lit "image" == lit "image_ocr") = false := by decide
  have d1 : ¬ (lit "image" = lit "image_ocr") := by decide
  have d2 : ¬ (lit "image_ocr" = lit "image") := by decide
  by_cases h : pyStrip img.ocrText = [] <;>
    simp [ImageProcessor.process, ImageProcessor.isImageEntry, ImageProcessor.isOcrEntry, h,
      List.countP_cons, List.countP_nil, e1, e2, e3, e4, d1, d2]

namespace PDFProcessor

theorem textBlocks_aux : ∀ (i : Nat) (ps : List PdfPage),
    ((pyEnum i ps).filterMap
      (fun p => if p.2.text = [] then none else some (pageHeader p.1 ++ p.2.text))).length =
    (ps.filter (fun p => !p.text.isEmpty)).length
  | _, [] => rfl
  | i, q :: ps => by
    by_cases hq : q.text = []
    · simp [pyEnum, List.filterMap_cons, hq, List.filter_cons, textBlocks_aux (i + 1) ps,
        List.isEmpty_iff]
    · simp [pyEnum, List.filterMap_cons, hq, List.filter_cons, textBlocks_aux (i + 1) ps,
        List.isEmpty_iff]

theorem textBlocks_length (pages : List PdfPage) :
    (textBlocks pages).length = (pages.filter (fun p => !p.text.isEmpty)).length :=
  textBlocks_aux 0 pages

theorem pageChunks_length (docId : Str) (blocks : List Str) :
    (pageChunks docId blocks).length = blocks.length := by
  simp [pageChunks, pyEnum_length]

theorem pageChunks_map_index (docId : Str) (blocks : List Str) :
    (pageChunks docId blocks).map (fun c => c.chunk_index) = List.range blocks.length := by
  have h := pyEnum_map_fst 0 blocks
  calc (pageChunks docId blocks).map (fun c => c.chunk_index)
      = (pyEnum 0 blocks).map Prod.fst := by
        simp [pageChunks, List.map_map]
    _ = List.range' 0 blocks.length := h
    _ = List.range blocks.length := (List.range_eq_range' blocks.length).symm

theorem pageChunks_type (docId : Str) (blocks : List Str) :
    ∀ c ∈ pageChunks docId blocks, c.content_type = lit "text" := by
  intro c hc
  simp only [pageChunks, List.mem_map] at hc
  obtain ⟨p, _, rfl⟩ := hc
  rfl

end PDFProcessor

set_option maxRecDepth 8000 in
/-- C4 counterexample: a two-page PDF whose first page yields no text has a
single chunk on the primary strategy, not one chunk per page. -/
theorem claimC4_counterexample : ¬ ClaimC4Prop c4Env := by decide

/-- C4 (amended): under the table-aware strategy, the first entry is the
document entry with confidence 0.9 and one chunk per page with non-empty
extracted text, chunks having content-type "text" and chunk index equal
to their position among the text-bearing pages. -/
theorem claimC4_theorem (env : PDFProcessor.PdfEnv) (h : env.plumberFails = false) :
    (∃ rest, PDFProcessor.process env =
      PDFProcessor.plumberDocEntry env.docId env.fileName env.pages :: rest) ∧
    (PDFProcessor.plumberDocEntry env.docId env.fileName env.pages).confidence_score = 90 ∧
    (PDFProcessor.plumberDocEntry env.docId env.fileName env.pages).chunks.length =
      (env.pages.filter (fun p => !p.text.isEmpty)).length ∧
    (PDFProcessor.plumberDocEntry env.docId env.fileName env.pages).chunks.map
        (fun c => c.chunk_index) =
      List.range (PDFProcessor.plumberDocEntry env.docId env.fileName env.pages).chunks.length ∧
    ∀ c ∈ (PDFProcessor.plumberDocEntry env.docId env.fileName env.pages).chunks,
      c.content_type = lit "text" := by
  refine ⟨⟨(pyEnum 0 (PDFProcessor.allTables env.pages)).filterMap
      (fun p => PDFProcessor._create_table_entry env.docId env.fileName p.2 p.1), ?_⟩,
    rfl, ?_, ?_, ?_⟩
  · simp [PDFProcessor.process, h]
  · show (PDFProcessor.pageChunks _ _).length = _
    rw [PDFProcessor.pageChunks_length, PDFProcessor.textBlocks_length]
  · show (PDFProcessor.pageChunks _ _).map _ =
      List.range (PDFProcessor.pageChunks _ _).length
    rw [PDFProcessor.pageChunks_map_index, PDFProcessor.pageChunks_length]
  · exact PDFProcessor.pageChunks_type _ _

set_option maxRecDepth 8000 in
/-- C4 witness: the amended statement instantiated at the two-page PDF. -/
theorem claimC4_witness :
    (∃ rest, PDFProcessor.process c4Env =
      PDFProcessor.plumberDocEntry c4Env.docId c4Env.fileName c4Env.pages :: rest) ∧
    (PDFProcessor.plumberDocEntry c4Env.docId c4Env.fileName c4Env.pages).confidence_score = 90 ∧
    (PDFProcessor.plumberDocEntry c4Env.docId c4Env.fileName c4Env.pages).chunks.length =
      (c4Env.pages.filter (fun p => !p.text.isEmpty)).length ∧
    (PDFProcessor.plumberDocEntry c4Env.docId c4Env.fileName c4Env.pages).chunks.map
        (fun c => c.chunk_index) =
      List.range (PDFProcessor.plumberDocEntry c4Env.docId c4Env.fileName c4Env.pages).chunks.length ∧
    ∀ c ∈ (PDFProcessor.plumberDocEntry c4Env.docId c4Env.fileName c4Env.pages).chunks,
      c.content_type = lit "text" :=
  claimC4_theorem c4Env rfl

set_option maxRecDepth 8000 in
/-- C1 counterexample: a one-page PDF on which the table-aware strategy
fails gets a fallback entry with zero chunks, not one chunk per page. -/
theorem claimC1_counterexample : ¬ ClaimC1Prop c1Env := by decide

/-- C1 (amended): whenever the table-aware strategy fails and the PyPDF2
fallback succeeds, the result is exactly the fallback document entry with
confidence 0.7 and an empty chunk list, and no table entries. -/
theorem claimC1_theorem (env : PDFProcessor.PdfEnv)
    (h1 : env.plumberFails = true) (h2 : env.pypdf2Fails = false) :
    PDFProcessor.process env =
      [PDFProcessor.fallbackEntry env.docId env.fileName env.pages] ∧
    (PDFProcessor.fallbackEntry env.docId env.fileName env.pages).document_type = lit "pdf" ∧
    (PDFProcessor.fallbackEntry env.docId env.fileName env.pages).confidence_score = 70 ∧
    (PDFProcessor.fallbackEntry env.docId env.fileName env.pages).chunks = [] ∧
    ∀ e ∈ PDFProcessor.process env, e.document_type ≠ lit "pdf_table" := by
  have hp : PDFProcessor.process env =
      [PDFProcessor.fallbackEntry env.docId env.fileName env.pages] := by
    simp [PDFProcessor.process, h1, h2]
  refine ⟨hp, rfl, rfl, rfl, ?_⟩
  intro e he
  rw [hp] at he
  simp only [List.mem_singleton] at he
  subst he
  change lit "pdf" ≠ lit "pdf_table"
  decide

/-- C1 witness: the amended statement instantiated at the one-page PDF
whose table-aware strategy fails. -/
theorem claimC1_witness :
    PDFProcessor.process c1Env =
      [PDFProcessor.fallbackEntry c1Env.docId c1Env.fileName c1Env.pages] ∧
    (PDFProcessor.fallbackEntry c1Env.docId c1Env.fileName c1Env.pages).document_type = lit "pdf" ∧
    (PDFProcessor.fallbackEntry c1Env.docId c1Env.fileName c1Env.pages).confidence_score = 70 ∧
    (PDFProcessor.fallbackEntry c1Env.docId c1Env.fileName c1Env.pages).chunks = [] ∧
    ∀ e ∈ PDFProcessor.process c1Env, e.document_type ≠ lit "pdf_table" :=
  claimC1_theorem c1Env rfl rfl

set_option maxRecDepth 8000 in
/-- C2 counterexample: for a `.pdf` file whose PDF extractor raises while
the text extractor would return one entry, `process_file` returns the
empty list, not the text extractor's result. -/
theorem claimC2_counterexample : ¬ ClaimC2Prop c2File := by
  intro h
  have h2 := h.2 UniversalDocumentProcessor.ProcClass.pdf (by decide) rfl
  exact absurd h2 (by decide)

/-- C2 (amended): `process_file` selects the extractor by detected
category, falls back to the plain-text extractor only when no extractor is
registered for that category, runs the selected extractor, and returns the
empty list (rather than the text extractor's result) when the selected
extractor throws; it never raises, being a total function of the file
behaviour. -/
theorem claimC2_theorem (f : UniversalDocumentProcessor.FileBehavior) :
    (UniversalDocumentProcessor.registeredProcessor (DocumentTypeDetector.detect f.path) = none →
      UniversalDocumentProcessor.process_file f =
        UniversalDocumentProcessor.runEntries f UniversalDocumentProcessor.ProcClass.text) ∧
    (∀ c, UniversalDocumentProcessor.registeredProcessor (DocumentTypeDetector.detect f.path) =
        some c →
      UniversalDocumentProcessor.process_file f = UniversalDocumentProcessor.runEntries f c) ∧
    (∀ c, UniversalDocumentProcessor.registeredProcessor (DocumentTypeDetector.detect f.path) =
        some c →
      f.run c = Except.error () → UniversalDocumentProcessor.process_file f = []) := by
  refine ⟨?_, ?_, ?_⟩
  · intro h
    simp [UniversalDocumentProcessor.process_file, h]
  · intro c h
    simp [UniversalDocumentProcessor.process_file, h]
  · intro c h herr
    simp [UniversalDocumentProcessor.process_file, h, UniversalDocumentProcessor.runEntries, herr]

/-- C2 witness: the amended statement instantiated at the `.pdf` file whose
PDF extractor raises. -/
theorem claimC2_witness : UniversalDocumentProcessor.process_file c2File = [] :=
  (claimC2_theorem c2File).2.2 UniversalDocumentProcessor.ProcClass.pdf (by decide) rfl

theorem countP_ext {α : Type} (p q : α → Bool) :
    ∀ l : List α, (∀ a ∈ l, p a = q a) → l.countP p = l.countP q
  | [], _ => rfl
  | a :: l, h => by
    have ha := h a (by simp)
    have ih := countP_ext p q l (fun a' ha' => h a' (by simp [ha']))
    simp [List.countP_cons, ha, ih]

namespace ExcelProcessor

theorem cellParts_nil_iff : ∀ (cols : List Str) (row : List Cell), cols.length = row.length →
    (cellParts cols row = [] ↔ row.any goodCell = false)
  | [], [], _ => by simp [cellParts]
  | [], _ :: _, h => by simp at h
  | _ :: _, [], h => by simp at h
  | c :: cs, x :: xs, h => by
    have hlen : cs.length = xs.length := by simpa using h
    have ih := cellParts_nil_iff cs xs hlen
    cases x with
    | none =>
      simpa [cellParts, List.filterMap_cons, goodCell] using ih
    | some v =>
      by_cases hv : pyStrip v = []
      · have hgc : goodCell (some v) = false := by simp [goodCell, hv]
        simpa [cellParts, List.filterMap_cons, hv, hgc] using ih
      · have hie : (pyStrip v).isEmpty = false := by
          simpa [List.isEmpty_iff] using hv
        simp [cellParts, List.filterMap_cons, hv, goodCell, hie]

theorem create_row_isSome (docId fileName sheetName : Str) (cols : List Str) (i : Nat)
    (row : List Cell) (hlen : cols.length = row.length) :
    (_create_entry_from_row docId fileName sheetName cols i row).isSome =
      row.any goodCell := by
  simp only [_create_entry_from_row]
  by_cases hp : cellParts cols row = []
  · rw [if_pos (by simp [hp])]
    simp [(cellParts_nil_iff cols row hlen).mp hp]
  · rw [if_neg (by simpa using hp)]
    have hany : row.any goodCell = true := by
      cases hq : row.any goodCell
      · exact absurd ((cellParts_nil_iff cols row hlen).mpr hq) hp
      · rfl
    simp [hany]

theorem create_row_fields (docId fileName sheetName : Str) (cols : List Str) (i : Nat)
    (row : List Cell) (e : KnowledgeBaseEntry)
    (h : _create_entry_from_row docId fileName sheetName cols i row = some e) :
    e.document_type = lit "excel" ∧ e.metadata = EntryMeta.excelRow sheetName i ∧
    ∃ c, e.chunks = [c] ∧ c.chunk_index = i ∧ c.total_chunks = cols.length := by
  simp only [_create_entry_from_row] at h
  split at h
  · exact absurd h (by simp)
  · rw [Option.some.injEq] at h
    subst h
    exact ⟨rfl, rfl, ⟨_, rfl, rfl, rfl⟩⟩

theorem sheet_entry_not_row (docId fileName sheetName : Str) (cols : List Str)
    (rows : List (List Cell)) (e : KnowledgeBaseEntry)
    (h : e ∈ (_create_entry_from_sheet docId fileName sheetName cols rows).toList) :
    isRowEntry e = false := by
  simp only [_create_entry_from_sheet] at h
  split at h
  · simp at h
  · simp only [Option.toList_some, List.mem_singleton] at h
    subst h
    rfl

end ExcelProcessor

/-- C5 counterexample: a sheet whose single row holds one whitespace-only
(non-null) cell survives pruning but produces no row-level entry. -/
theorem claimC5_counterexample : ¬ ClaimC5Prop c5Sheet := by
  intro h
  exact absurd (h [] []) (by decide)

/-- C5 (amended): per sheet, the number of row-level entries equals the
number of pruning-surviving rows that have at least one non-null cell
whose string form is non-blank after stripping. -/
theorem claimC5_theorem (docId fileName : Str) (s : ExcelProcessor.Sheet) :
    (ExcelProcessor.processSheet docId fileName s).countP ExcelProcessor.isRowEntry =
      ((ExcelProcessor.keptRowPairs s).filter
        (fun p => ExcelProcessor.goodRow (ExcelProcessor.prunedIdxs s) p.2)).length := by
  rw [← List.countP_eq_length_filter]
  simp only [ExcelProcessor.processSheet]
  split
  · rename_i hcond
    rw [List.countP_nil]
    rcases (by simpa using hcond : (ExcelProcessor.keptRowPairs s).isEmpty = true ∨
        (ExcelProcessor.prunedIdxs s).isEmpty = true) with hk | hi
    · rw [List.isEmpty_iff.mp hk]
      rfl
    · have hidx := List.isEmpty_iff.mp hi
      symm
      rw [List.countP_eq_zero]
      intro p _
      simp [ExcelProcessor.goodRow, ExcelProcessor.pruneRow, hidx]
  · rw [List.countP_append]
    have hsheet : (ExcelProcessor._create_entry_from_sheet docId fileName s.sheet_name
        (ExcelProcessor.prunedHeaders s)
        ((ExcelProcessor.keptRowPairs s).map
          (fun p => ExcelProcessor.pruneRow (ExcelProcessor.prunedIdxs s) p.2))).toList.countP
        ExcelProcessor.isRowEntry = 0 := by
      rw [List.countP_eq_zero]
      intro e he
      simp [ExcelProcessor.sheet_entry_not_row _ _ _ _ _ e he]
    rw [hsheet, Nat.add_zero]
    have hrow : ∀ (a : Nat × List ExcelProcessor.Cell) (b : KnowledgeBaseEntry),
        ExcelProcessor._create_entry_from_row docId fileName s.sheet_name
          (ExcelProcessor.prunedHeaders s) a.1
          (ExcelProcessor.pruneRow (ExcelProcessor.prunedIdxs s) a.2) = some b →
        ExcelProcessor.isRowEntry b = true := by
      intro a b hab
      have hd := (ExcelProcessor.create_row_fields _ _ _ _ _ _ b hab).1
      simp [ExcelProcessor.isRowEntry, hd]
    rw [countP_filterMap_eq _ _ hrow]
    apply countP_ext
    intro p _
    rw [ExcelProcessor.create_row_isSome docId fileName s.sheet_name
      (ExcelProcessor.prunedHeaders s) p.1 (ExcelProcessor.pruneRow (ExcelProcessor.prunedIdxs s) p.2)
      (by simp [ExcelProcessor.prunedHeaders, ExcelProcessor.pruneRow])]
    rfl

/-- C10: every row-level entry owns exactly one chunk whose `chunk_index`
is the row's positional index in the sheet (its original pandas index
label), and whose `total_chunks` is the pruned frame's column count, not
the entry's chunk count. -/
theorem claimC10_theorem (docId fileName : Str) (s : ExcelProcessor.Sheet)
    (e : KnowledgeBaseEntry) (he : e ∈ ExcelProcessor.processSheet docId fileName s)
    (hrow : ExcelProcessor.isRowEntry e = true) :
    ∃ c i r, (i, r) ∈ ExcelProcessor.keptRowPairs s ∧ s.rows[i]? = some r ∧
      e.chunks = [c] ∧ c.chunk_index = i ∧
      c.total_chunks = (ExcelProcessor.prunedHeaders s).length ∧
      e.metadata = EntryMeta.excelRow s.sheet_name i := by
  simp only [ExcelProcessor.processSheet] at he
  split at he
  · simp at he
  · rcases List.mem_append.mp he with he | he
    · obtain ⟨p, hp, hpe⟩ := List.mem_filterMap.mp he
      obtain ⟨_, hm, c, hc, hci, hct⟩ := ExcelProcessor.create_row_fields _ _ _ _ _ _ e hpe
      have hmem : p ∈ pyEnum 0 s.rows := List.mem_of_mem_filter hp
      have hget := (mem_pyEnum s.rows 0 p hmem).2
      refine ⟨c, p.1, p.2, hp, ?_, hc, hci, hct, hm⟩
      simpa using hget
    · exact absurd hrow (by simp [ExcelProcessor.sheet_entry_not_row _ _ _ _ _ e he])

/-- C10 witness: the row entry produced for a one-row, one-column sheet. -/
theorem claimC10_witness :
    ∃ c i r, (i, r) ∈ ExcelProcessor.keptRowPairs c10Sheet ∧ c10Sheet.rows[i]? = some r ∧
      c10Entry.chunks = [c] ∧ c.chunk_index = i ∧
      c.total_chunks = (ExcelProcessor.prunedHeaders c10Sheet).length ∧
      c10Entry.metadata = EntryMeta.excelRow c10Sheet.sheet_name i :=
  claimC10_theorem [] [] c10Sheet c10Entry (by decide) (by decide)
